import Mathlib

/-!
Shallow embedding of the `pb` canvas-painting bot (`src/main.rs`).

Machine integers are modelled as `Nat` with explicit `% 2^w` where overflow
matters; Rust panics (unsigned underflow, out-of-bounds raster reads,
`Option::unwrap` on `None`) are modelled by returning `none` from the
embedded function; fallible constructors return `Except`.
-/

namespace PB

/-- The 25-entry palette `COLORS`, with each `#RRGGBB` hex constant from the
source decoded to its `(r, g, b)` byte triple. -/
def COLORS : List (Nat × Nat × Nat) :=
  [(255, 255, 255), (194, 194, 194), (133, 133, 133), (71, 71, 71), (0, 0, 0),
   (58, 175, 255), (113, 170, 235), (74, 118, 168), (7, 75, 243), (94, 48, 235),
   (255, 108, 91), (254, 37, 0), (255, 33, 139), (153, 36, 79), (77, 44, 156),
   (255, 207, 74), (254, 180, 63), (254, 134, 72), (255, 91, 54), (218, 81, 0),
   (148, 224, 68), (92, 191, 13), (195, 209, 23), (252, 199, 0), (211, 131, 1)]

/-- The squared Euclidean RGB distance computed inside `resolve_color_id`:
`(max a b - min a b)^2` summed over the three channels (the source uses
`cmp::max`/`cmp::min` to avoid `u8` underflow; on `Nat` the same expression
is used verbatim). -/
def sqDist (a b : Nat × Nat × Nat) : Nat :=
  (max a.1 b.1 - min a.1 b.1) ^ 2 + (max a.2.1 b.2.1 - min a.2.1 b.2.1) ^ 2 +
    (max a.2.2 b.2.2 - min a.2.2 b.2.2) ^ 2

/-- The loop of `PixelProvider::resolve_color_id`: walk the remaining palette
entries carrying the running index and the `nearest = Option (index, dist)`
accumulator; return `(index, true)` at the first zero distance, otherwise
update `nearest` (a strictly smaller distance replaces it; ties keep the
earlier entry) and continue.  After the loop the source does
`nearest.unwrap()`; the unwrap-on-`None` panic is modelled by `none`. -/
def resolveAux (rgb : Nat × Nat × Nat) :
    Nat → Option (Nat × Nat) → List (Nat × Nat × Nat) → Option (Nat × Bool)
  | _, nearest, [] => nearest.map fun p => (p.1, false)
  | index, nearest, c :: rest =>
    if sqDist rgb c = 0 then some (index, true)
    else
      resolveAux rgb (index + 1)
        (match nearest with
         | none => some (index, sqDist rgb c)
         | some (c0, t0) =>
           if sqDist rgb c < t0 then some (index, sqDist rgb c) else some (c0, t0))
        rest

/-- `PixelProvider::resolve_color_id(r, g, b)`: scan `COLORS` from index 0 with
an empty `nearest` accumulator.  The result `(id, exact)` mirrors the source's
`ColorId { id, exact }`. -/
def resolve_color_id (r g b : Nat) : Option (Nat × Bool) :=
  resolveAux (r, g, b) 0 none COLORS

/-- Constant `PixelProvider::MAX_COLOR_ID = 25`. -/
def MAX_COLOR_ID : Nat := 25

/-- Constant `PixelProvider::MAX_HEIGHT = 400`. -/
def MAX_HEIGHT : Nat := 400

/-- Constant `PixelProvider::MAX_WIDTH = 1590`. -/
def MAX_WIDTH : Nat := 1590

/-- Constant `PixelProvider::SIZE = 636000`. -/
def SIZE : Nat := 636000

/-- A `PixelInfo { x, y, color_id }` record.  In the source `x, y : u32` and
`color_id : u8`; here they are `Nat`s and the width reductions happen inside
`pack`, where the casts occur. -/
structure PixelInfo where
  x : Nat
  y : Nat
  color_id : Nat
  deriving DecidableEq, Repr

/-- `PixelProvider::pack`: `value = x as i32 + y as i32 * MAX_WIDTH +
SIZE * (color_id as i32 + 0 * MAX_COLOR_ID)`, then `value.to_le_bytes()`.
The `u32 -> i32` casts are bit-reinterpretations and `i32` arithmetic wraps
modulo `2^32` on the bit pattern, so the four little-endian bytes are those of
the sum reduced modulo `2^32` (with `x`, `y` first reduced to `u32` range and
`color_id` to `u8` range, mirroring their Rust types). -/
def pack (info : PixelInfo) : List Nat :=
  let value := (info.x % 2 ^ 32 + info.y % 2 ^ 32 * MAX_WIDTH +
    SIZE * (info.color_id % 2 ^ 8 + 0 * MAX_COLOR_ID)) % 2 ^ 32
  [value % 2 ^ 8, value / 2 ^ 8 % 2 ^ 8, value / 2 ^ 16 % 2 ^ 8, value / 2 ^ 24 % 2 ^ 8]

/-- A decoded 8-bit RGB raster: the `image.as_rgb8()` view used by
`get_pixel`, with `dimensions()` and per-coordinate pixel lookup. -/
structure Raster where
  width : Nat
  height : Nat
  pixel : Nat → Nat → Nat × Nat × Nat

/-- The `PixelProvider` state: decoded image, `initial` origin offset,
`current` cursor (both `(x, y)` pairs of `u32`s), and the `end` flag. -/
structure PixelProvider where
  image : Raster
  initial : Nat × Nat
  current : Nat × Nat
  «end» : Bool

/-- Rust `u32` subtraction `a - b`, which panics on underflow: `none` when
`b > a`. -/
def checkedSub (a b : Nat) : Option Nat :=
  if b ≤ a then some (a - b) else none

/-- `rgb.get_pixel(x, y)` on an `RgbImage`, which panics when `(x, y)` is
outside the raster bounds: `none` in that case. -/
def rasterGet (r : Raster) (x y : Nat) : Option (Nat × Nat × Nat) :=
  if x < r.width ∧ y < r.height then some (r.pixel x y) else none

/-- `PixelProvider::get_pixel`, step-for-step from the source:
1. if `end` is set, return `None` (modelled `some (none, p)`: no panic);
2. `(dx, dy) = (current.0 - initial.0, current.1 - initial.1)` with panicking
   `u32` subtraction;
3. if `dx >= width`, set `current.0 = 0` and increment `current.1` (the
   already-computed `dx`, `dy` are NOT recomputed);
4. if `dy >= height`, set `end` and return `None`;
5. read the raster at the old `(dx, dy)` (panicking when out of bounds),
   resolve its color, and return a record at the (possibly wrapped) `current`
   coordinates.
The outer `Option` is the panic layer (`none` = panic); the inner
`Option PixelInfo` is the source's return value, paired with the updated
provider state.  The `as_rgb8().expect(..)` assertion is discharged by
modelling the image as an already-RGB8 `Raster`. -/
def get_pixel (p : PixelProvider) : Option (Option PixelInfo × PixelProvider) :=
  if p.«end» then some (none, p)
  else
    match checkedSub p.current.1 p.initial.1, checkedSub p.current.2 p.initial.2 with
    | some dx, some dy =>
      let width := p.image.width
      let height := p.image.height
      let p1 := if dx ≥ width then { p with current := (0, p.current.2 + 1) } else p
      if dy ≥ height then some (none, { p1 with «end» := true })
      else
        match rasterGet p.image dx dy with
        | none => none
        | some (r, g, b) =>
          match resolve_color_id r g b with
          | none => none
          | some (id, _exact) => some (some ⟨p1.current.1, p1.current.2, id⟩, p1)
    | _, _ => none

/-- Error cases of `PixelProvider::new`: the two explicit out-of-range
`anyhow!` errors and the error propagated from `image::open`. -/
inductive NewError where
  | xOutOfRange
  | yOutOfRange
  | imageError
  deriving DecidableEq, Repr

/-- `PixelProvider::new(image, x, y)`: reject `x >= MAX_WIDTH`, then
`y >= MAX_HEIGHT`, and only then consult the result of `image::open`
(passed in as `openResult`, since file decoding is an external
collaborator).  On success `initial = current = (x, y)` and `end = false`. -/
def PixelProvider.new (openResult : Except Unit Raster) (x y : Nat) :
    Except NewError PixelProvider :=
  if x ≥ MAX_WIDTH then .error .xOutOfRange
  else if y ≥ MAX_HEIGHT then .error .yOutOfRange
  else
    match openResult with
    | .error _ => .error .imageError
    | .ok img => .ok ⟨img, (x, y), (x, y), false⟩

/-- States of the shared `PixelProvider` reachable from construction over
raster `r` at origin `(x0, y0)` by calls to `get_pixel` that did not panic. -/
inductive Reachable (r : Raster) (x0 y0 : Nat) : PixelProvider → Prop
  | init : Reachable r x0 y0 ⟨r, (x0, y0), (x0, y0), false⟩
  | step {p p' : PixelProvider} {o : Option PixelInfo} :
      Reachable r x0 y0 p → get_pixel p = some (o, p') → Reachable r x0 y0 p'

/-- The send loop of `Bot::run` (`for i in 0..5 { ... }`), parameterised by
the outcome oracle `ok i` of the `i`-th send attempt.  `fuel` is the number of
remaining loop iterations (5 at entry), `i` the current attempt index.
Returns `(attempts made, sent successfully, sleeps performed in seconds)`:
each failed attempt logs and sleeps 5 seconds before the next iteration; a
successful attempt breaks out of the loop immediately. -/
def sendLoopGo (ok : Nat → Bool) : Nat → Nat → Nat × Bool × List Nat
  | _, 0 => (0, false, [])
  | i, fuel + 1 =>
    if ok i then (1, true, [])
    else
      let r := sendLoopGo ok (i + 1) fuel
      (r.1 + 1, r.2.1, 5 :: r.2.2)

/-- The full send loop for one pixel: five iterations starting at attempt 0,
exactly as `for i in 0..5` in `Bot::run`. -/
def sendLoop (ok : Nat → Bool) : Nat × Bool × List Nat :=
  sendLoopGo ok 0 5

/-- One inbound item of the worker loop `while let Some(msg) =
self.connection.next().await`:
a `Close` frame, the `ConnectionClosed` / `AlreadyClosed` transport errors,
any other transport error, or an ordinary frame. -/
inductive InEvent where
  | closeMsg
  | connClosed
  | alreadyClosed
  | otherErr
  | frame
  deriving DecidableEq, Repr

/-- Whether the worker task is still running its loop or has terminated
(by `break`, by `return`, or by a panic ending the task). -/
inductive Status where
  | running
  | terminated
  deriving DecidableEq, Repr

/-- The per-worker state of `Bot::run`: the endpoint `url` (an abstract
identifier; the source stores the `Url` it was constructed with and never
changes it), a generation counter for the replaceable `connection` handle,
the shared `PixelProvider`, and whether the task is still running. -/
structure WorkerState where
  url : Nat
  connGen : Nat
  provider : PixelProvider
  status : Status

/-- Observable effects of one iteration of the `Bot::run` loop body:
the endpoints against which a fresh handshake was attempted, the pixel pulled
from the shared provider (if any), the payloads of the send attempts made,
and the fixed sleeps performed (in seconds). -/
structure StepEffects where
  handshakes : List Nat
  pulled : Option PixelInfo
  sendPayloads : List (List Nat)
  sleeps : List Nat
  deriving DecidableEq, Repr

/-- One iteration of the `while let` loop body of `Bot::run`, for a worker in
`running` state, driven by its environment:
`ev` is the inbound item, `reconnectOk` the outcome of a handshake attempted
this iteration, `timerFin` the value of `timer.is_finished()`, and `sendOk`
the outcomes of this iteration's send attempts.
- `Close` frames and `ConnectionClosed`/`AlreadyClosed` errors: one
  `Self::connect(&self.url)` followed by `.unwrap()` — success installs the
  fresh handle and `continue`s the loop; failure panics, ending the task;
- any other error: `break`, ending the loop;
- any other frame: when the pacing timer has fired, pull one pixel under the
  provider lock; `None` panics if `get_pixel` panicked, `Some(None)` is
  source exhaustion (`return`), `Some(Some px)` runs the send loop on
  `pack px` and keeps running. -/
def botStep (s : WorkerState) (ev : InEvent) (reconnectOk : Bool) (timerFin : Bool)
    (sendOk : Nat → Bool) : WorkerState × StepEffects :=
  match ev with
  | .closeMsg | .connClosed | .alreadyClosed =>
    if reconnectOk then
      ({ s with connGen := s.connGen + 1 }, ⟨[s.url], none, [], []⟩)
    else
      ({ s with status := .terminated }, ⟨[s.url], none, [], []⟩)
  | .otherErr => ({ s with status := .terminated }, ⟨[], none, [], []⟩)
  | .frame =>
    if timerFin then
      match get_pixel s.provider with
      | none => ({ s with status := .terminated }, ⟨[], none, [], []⟩)
      | some (none, p') => ({ s with provider := p', status := .terminated }, ⟨[], none, [], []⟩)
      | some (some px, p') =>
        let r := sendLoop sendOk
        ({ s with provider := p' }, ⟨[], some px, List.replicate r.1 (pack px), r.2.2⟩)
    else (s, ⟨[], none, [], []⟩)

/-- Outcome of the orchestrator (`main`): how many workers were spawned
before any construction failure, whether the await-all point
(`handles.collect::<Vec<_>>().await`) was reached, and whether `main`
returned an error. -/
structure MainResult where
  spawned : Nat
  awaited : Bool
  failed : Bool
  deriving DecidableEq, Repr

/-- The spawn loop of `main` over the configured endpoints, with
`outcomes i = true` when the handshake of the `i`-th `Bot::new` succeeds:
`let bot = Bot::new(..).await?` propagates the first failure out of `main`
immediately (no await of already-spawned workers); if every construction
succeeds, `main` reaches `handles.collect(..).await`. -/
def mainGo : List Bool → Nat → MainResult
  | [], spawned => ⟨spawned, true, false⟩
  | o :: rest, spawned =>
    if o then mainGo rest (spawned + 1) else ⟨spawned, false, true⟩

/-- The orchestrator body of `main` after configuration parsing, as a
function of the per-worker handshake outcomes. -/
def mainModel (outcomes : List Bool) : MainResult :=
  mainGo outcomes 0

/-- A 1×1 all-white raster. -/
def whiteRaster : Raster := ⟨1, 1, fun _ _ => (255, 255, 255)⟩

/-- A 2×2 all-black raster. -/
def blackRaster : Raster := ⟨2, 2, fun _ _ => (0, 0, 0)⟩

/-- A zero-width, one-row raster. -/
def zeroWidthRaster : Raster := ⟨0, 1, fun _ _ => (0, 0, 0)⟩

/-- The provider freshly constructed over the 1×1 white raster at origin
`(0, 0)`. -/
def whiteProvider : PixelProvider := ⟨whiteRaster, (0, 0), (0, 0), false⟩

/-- The provider freshly constructed over the 2×2 black raster at origin
`(0, 0)`. -/
def blackProvider : PixelProvider := ⟨blackRaster, (0, 0), (0, 0), false⟩

/-- The provider freshly constructed over the zero-width raster at origin
`(0, 0)`. -/
def zeroWidthProvider : PixelProvider := ⟨zeroWidthRaster, (0, 0), (0, 0), false⟩

/-! ## Helper lemmas -/

/-- The squared RGB distance is zero exactly on equal triples. -/
theorem sqDist_eq_zero_iff (a b : Nat × Nat × Nat) : sqDist a b = 0 ↔ a = b := by
  obtain ⟨a1, a2, a3⟩ := a
  obtain ⟨b1, b2, b3⟩ := b
  rw [sqDist, Nat.add_eq_zero, Nat.add_eq_zero, pow_eq_zero_iff (two_ne_zero),
    pow_eq_zero_iff (two_ne_zero), pow_eq_zero_iff (two_ne_zero), Prod.mk.injEq, Prod.mk.injEq]
  dsimp only
  omega

/-- When `rgb` occurs in the remaining list, `resolveAux` returns `exact =
true` at the global index of its first occurrence, whatever the
accumulator. -/
theorem resolveAux_exact (rgb : Nat × Nat × Nat) :
    ∀ (l : List (Nat × Nat × Nat)) (index : Nat) (nearest : Option (Nat × Nat)),
      rgb ∈ l →
      ∃ k, resolveAux rgb index nearest l = some (index + k, true) ∧
        k < l.length ∧ l.getD k (0, 0, 0) = rgb ∧
        ∀ m < k, l.getD m (0, 0, 0) ≠ rgb := by
  intro l
  induction l with
  | nil => intro _ _ h; simp at h
  | cons c rest ih =>
    intro index nearest hmem
    by_cases h0 : sqDist rgb c = 0
    · have hc : c = rgb := ((sqDist_eq_zero_iff rgb c).mp h0).symm
      refine ⟨0, ?_, by simp, by simpa using hc, fun m hm => absurd hm (by omega)⟩
      simp [resolveAux, h0]
    · have hc : c ≠ rgb := fun h => h0 ((sqDist_eq_zero_iff rgb c).mpr h.symm)
      have hmem' : rgb ∈ rest := by
        rcases List.mem_cons.mp hmem with h | h
        · exact absurd h.symm hc
        · exact h
      obtain ⟨k, hk, hlen, hget, hmin⟩ := ih (index + 1)
        (match nearest with
         | none => some (index, sqDist rgb c)
         | some (c0, t0) =>
           if sqDist rgb c < t0 then some (index, sqDist rgb c) else some (c0, t0)) hmem'
      refine ⟨k + 1, ?_, by simpa using hlen, by simpa using hget, ?_⟩
      · rw [show index + (k + 1) = index + 1 + k by omega]
        simpa [resolveAux, h0] using hk
      · intro m hm
        cases m with
        | zero => simpa using hc
        | succ m' => simpa using hmin m' (by omega)

/-- With a nonempty accumulator, `resolveAux` never panics at the final
unwrap. -/
theorem resolveAux_isSome (rgb : Nat × Nat × Nat) :
    ∀ (l : List (Nat × Nat × Nat)) (index j0 t0 : Nat),
      (resolveAux rgb index (some (j0, t0)) l).isSome := by
  intro l
  induction l with
  | nil => intro index j0 t0; simp [resolveAux]
  | cons c rest ih =>
    intro index j0 t0
    by_cases h0 : sqDist rgb c = 0
    · simp [resolveAux, h0]
    · by_cases hlt : sqDist rgb c < t0
      · simpa [resolveAux, h0, hlt] using ih (index + 1) index (sqDist rgb c)
      · simpa [resolveAux, h0, hlt] using ih (index + 1) j0 t0

/-- The quantizer always succeeds: the palette is nonempty, so the final
`nearest.unwrap()` never panics. -/
theorem resolve_color_id_isSome (r g b : Nat) : (resolve_color_id r g b).isSome := by
  rw [resolve_color_id, COLORS, resolveAux]
  by_cases h0 : sqDist (r, g, b) (255, 255, 255) = 0
  · rw [if_pos h0]; rfl
  · rw [if_neg h0]
    exact resolveAux_isSome (r, g, b) _ 1 0 (sqDist (r, g, b) (255, 255, 255))

/-- With a nonempty accumulator `(j0, t0)` and no exact match in the
remaining list, `resolveAux` returns `exact = false` together with the first
global index attaining the minimum distance among the accumulator and the
remaining entries. -/
theorem resolveAux_inexact (rgb : Nat × Nat × Nat) :
    ∀ (l : List (Nat × Nat × Nat)) (index j0 t0 : Nat),
      (∀ c ∈ l, sqDist rgb c ≠ 0) →
      ∃ j t, resolveAux rgb index (some (j0, t0)) l = some (j, false) ∧
        t ≤ t0 ∧
        (∀ k < l.length, t ≤ sqDist rgb (l.getD k (0, 0, 0))) ∧
        ((j = j0 ∧ t = t0) ∨
          (∃ k < l.length, j = index + k ∧ t = sqDist rgb (l.getD k (0, 0, 0)) ∧
            t < t0 ∧ ∀ m < k, t < sqDist rgb (l.getD m (0, 0, 0)))) := by
  intro l
  induction l with
  | nil =>
    intro index j0 t0 _
    exact ⟨j0, t0, rfl, le_refl _, fun k hk => by simp at hk, Or.inl ⟨rfl, rfl⟩⟩
  | cons c rest ih =>
    intro index j0 t0 hne
    have h0 : sqDist rgb c ≠ 0 := hne c (List.mem_cons_self c rest)
    have hrest : ∀ c' ∈ rest, sqDist rgb c' ≠ 0 :=
      fun c' hc' => hne c' (List.mem_cons_of_mem c hc')
    by_cases hlt : sqDist rgb c < t0
    · obtain ⟨j, t, hj, hle, hall, hdisj⟩ := ih (index + 1) index (sqDist rgb c) hrest
      refine ⟨j, t, ?_, le_trans hle (le_of_lt hlt), ?_, ?_⟩
      · rw [resolveAux, if_neg h0]
        simpa [hlt] using hj
      · intro k hk
        cases k with
        | zero => simpa using hle
        | succ k' => simpa using hall k' (by simpa using hk)
      · rcases hdisj with ⟨hjeq, hteq⟩ | ⟨k, hk, hjk, htk, htlt, hmin⟩
        · refine Or.inr ⟨0, by simp, by omega, by simpa using hteq, by omega,
            fun m hm => absurd hm (by omega)⟩
        · refine Or.inr ⟨k + 1, by simpa using hk, by omega, by simpa using htk,
            lt_trans htlt hlt, ?_⟩
          intro m hm
          cases m with
          | zero => simpa using htlt
          | succ m' => simpa using hmin m' (by omega)
    · obtain ⟨j, t, hj, hle, hall, hdisj⟩ := ih (index + 1) j0 t0 hrest
      refine ⟨j, t, ?_, hle, ?_, ?_⟩
      · rw [resolveAux, if_neg h0]
        simpa [hlt] using hj
      · intro k hk
        cases k with
        | zero =>
          simp only [List.getD_cons_zero]
          omega
        | succ k' => simpa using hall k' (by simpa using hk)
      · rcases hdisj with ⟨hjeq, hteq⟩ | ⟨k, hk, hjk, htk, htlt, hmin⟩
        · exact Or.inl ⟨hjeq, hteq⟩
        · refine Or.inr ⟨k + 1, by simpa using hk, by omega, by simpa using htk, htlt, ?_⟩
          intro m hm
          cases m with
          | zero =>
            simp only [List.getD_cons_zero]
            omega
          | succ m' => simpa using hmin m' (by omega)

/-- Starting `resolveAux` with an empty accumulator on a nonempty list with
no exact match returns `exact = false` and the first global index attaining
the minimum distance over the list. -/
theorem resolveAux_inexact_start (rgb : Nat × Nat × Nat) (c : Nat × Nat × Nat)
    (rest : List (Nat × Nat × Nat)) (index : Nat)
    (hne : ∀ c' ∈ c :: rest, sqDist rgb c' ≠ 0) :
    ∃ j k, resolveAux rgb index none (c :: rest) = some (j, false) ∧
      k < (c :: rest).length ∧ j = index + k ∧
      (∀ m < (c :: rest).length,
        sqDist rgb ((c :: rest).getD k (0, 0, 0)) ≤ sqDist rgb ((c :: rest).getD m (0, 0, 0))) ∧
      ∀ m < k,
        sqDist rgb ((c :: rest).getD k (0, 0, 0)) < sqDist rgb ((c :: rest).getD m (0, 0, 0)) := by
  have h0 : sqDist rgb c ≠ 0 := hne c (List.mem_cons_self c rest)
  have hrest : ∀ c' ∈ rest, sqDist rgb c' ≠ 0 :=
    fun c' hc' => hne c' (List.mem_cons_of_mem c hc')
  obtain ⟨j, t, hj, hle, hall, hdisj⟩ := resolveAux_inexact rgb rest (index + 1) index
    (sqDist rgb c) hrest
  have hstep : resolveAux rgb index none (c :: rest) = some (j, false) := by
    rw [resolveAux, if_neg h0]
    exact hj
  rcases hdisj with ⟨hjeq, hteq⟩ | ⟨k, hk, hjk, htk, htlt, hmin⟩
  · refine ⟨j, 0, hstep, by simp, by omega, ?_, fun m hm => absurd hm (by omega)⟩
    intro m hm
    cases m with
    | zero => simp
    | succ m' =>
      have := hall m' (by simpa using hm)
      simpa [hteq] using this
  · refine ⟨j, k + 1, hstep, by simpa using hk, by omega, ?_, ?_⟩
    · intro m hm
      cases m with
      | zero =>
        simp only [List.getD_cons_zero, List.getD_cons_succ]
        omega
      | succ m' =>
        have := hall m' (by simpa using hm)
        simp only [List.getD_cons_succ]
        omega
    · intro m hm
      cases m with
      | zero =>
        simp only [List.getD_cons_zero, List.getD_cons_succ]
        omega
      | succ m' =>
        have := hmin m' (by omega)
        simp only [List.getD_cons_succ]
        omega

/-- The send loop makes at most `fuel` attempts. -/
theorem sendLoopGo_attempts_le (ok : Nat → Bool) :
    ∀ (fuel i : Nat), (sendLoopGo ok i fuel).1 ≤ fuel := by
  intro fuel
  induction fuel with
  | zero => intro i; simp [sendLoopGo]
  | succ n ih =>
    intro i
    by_cases h : ok i
    · simp [sendLoopGo, h]
    · simp only [sendLoopGo, h, if_false, Bool.false_eq_true]
      have := ih (i + 1)
      omega

/-- Every sleep performed by the send loop lasts exactly 5 seconds. -/
theorem sendLoopGo_sleeps (ok : Nat → Bool) :
    ∀ (fuel i d : Nat), d ∈ (sendLoopGo ok i fuel).2.2 → d = 5 := by
  intro fuel
  induction fuel with
  | zero => intro i d hd; simp [sendLoopGo] at hd
  | succ n ih =>
    intro i d hd
    by_cases h : ok i
    · simp [sendLoopGo, h] at hd
    · simp only [sendLoopGo, h, if_false, Bool.false_eq_true, List.mem_cons] at hd
      rcases hd with rfl | hd
      · rfl
      · exact ih (i + 1) d hd

/-- When every attempt fails, the send loop makes exactly `fuel` attempts and
sleeps after each one. -/
theorem sendLoopGo_fail (ok : Nat → Bool) :
    ∀ (fuel i : Nat), (sendLoopGo ok i fuel).2.1 = false →
      (sendLoopGo ok i fuel).1 = fuel ∧ (sendLoopGo ok i fuel).2.2.length = fuel := by
  intro fuel
  induction fuel with
  | zero => intro i _; simp [sendLoopGo]
  | succ n ih =>
    intro i hfail
    by_cases h : ok i
    · simp [sendLoopGo, h] at hfail
    · simp only [sendLoopGo, h, if_false, Bool.false_eq_true] at hfail ⊢
      have := ih (i + 1) hfail
      simp only [List.length_cons]
      omega

/-- When the first success is the `k`-th attempt (`k < fuel`), the send loop
makes exactly `k + 1` attempts, succeeds, and sleeps after each of the `k`
failures. -/
theorem sendLoopGo_success (ok : Nat → Bool) :
    ∀ (fuel k i : Nat), k < fuel → ok (i + k) = true → (∀ j < k, ok (i + j) = false) →
      (sendLoopGo ok i fuel).1 = k + 1 ∧ (sendLoopGo ok i fuel).2.1 = true ∧
        (sendLoopGo ok i fuel).2.2.length = k := by
  intro fuel
  induction fuel with
  | zero => intro k i hk; omega
  | succ n ih =>
    intro k i hk hok hfirst
    cases k with
    | zero =>
      have h : ok i = true := by simpa using hok
      simp [sendLoopGo, h]
    | succ k' =>
      have h0 : ok i = false := by simpa using hfirst 0 (by omega)
      have hok' : ok (i + 1 + k') = true := by
        rw [show i + 1 + k' = i + (k' + 1) by omega]
        exact hok
      have hfirst' : ∀ j < k', ok (i + 1 + j) = false := by
        intro j hj
        rw [show i + 1 + j = i + (j + 1) by omega]
        exact hfirst (j + 1) (by omega)
      obtain ⟨h1, h2, h3⟩ := ih k' (i + 1) (by omega) hok' hfirst'
      simp only [sendLoopGo, h0, if_false, Bool.false_eq_true, List.length_cons]
      exact ⟨by omega, h2, by omega⟩

/-- When the `i`-th handshake fails and all earlier ones succeed, the spawn
loop of `main` stops right there: `i` more workers spawned, the await-all
point never reached, and `main` reports the error. -/
theorem mainGo_abort :
    ∀ (outcomes : List Bool) (spawned i : Nat),
      outcomes.getD i true = false → (∀ j < i, outcomes.getD j true = true) →
      mainGo outcomes spawned = ⟨spawned + i, false, true⟩ := by
  intro outcomes
  induction outcomes with
  | nil => intro spawned i hi _; simp at hi
  | cons o rest ih =>
    intro spawned i hi hfirst
    cases i with
    | zero =>
      have : o = false := by simpa using hi
      simp [mainGo, this]
    | succ i' =>
      have h0 : o = true := by simpa using hfirst 0 (by omega)
      have := ih (spawned + 1) i' (by simpa using hi)
        (fun j hj => by simpa using hfirst (j + 1) (by omega))
      rw [mainGo, if_pos (by simp [h0]), this,
        show spawned + 1 + i' = spawned + (i' + 1) by omega]

/-- Characterization of one `get_pixel` call from a state whose cursor still
sits at the origin, over a raster with at least one column: either the
provider was already exhausted (result `None`, state unchanged), or the
raster has no rows (sets `end`, returns `None`), or a pixel at the cursor
coordinates is returned with the state unchanged.  In particular no branch
panics and the cursor never moves. -/
theorem get_pixel_step_cases {p : PixelProvider} (hcur : p.current = p.initial)
    (hw : 1 ≤ p.image.width) :
    (get_pixel p = some (none, p) ∧ p.«end» = true) ∨
    (get_pixel p = some (none, { p with «end» := true }) ∧ p.«end» = false) ∨
    (∃ id, get_pixel p = some (some ⟨p.current.1, p.current.2, id⟩, p) ∧ p.«end» = false) := by
  by_cases he : p.«end»
  · exact Or.inl ⟨by rw [get_pixel, if_pos he], he⟩
  · have hdx : checkedSub p.current.1 p.initial.1 = some 0 := by
      rw [hcur, checkedSub]
      simp
    have hdy : checkedSub p.current.2 p.initial.2 = some 0 := by
      rw [hcur, checkedSub]
      simp
    by_cases hh : p.image.height = 0
    · refine Or.inr (Or.inl ⟨?_, by simpa using he⟩)
      rw [get_pixel, if_neg he, hdx, hdy]
      dsimp only
      rw [if_neg (by omega : ¬ (0 ≥ p.image.width)), if_pos (by omega : 0 ≥ p.image.height)]
    · refine Or.inr (Or.inr ?_)
      obtain ⟨pr, pg, pb, hpx⟩ : ∃ a b c, p.image.pixel 0 0 = (a, b, c) := ⟨_, _, _, rfl⟩
      have hget : rasterGet p.image 0 0 = some (pr, pg, pb) := by
        rw [rasterGet, if_pos ⟨by omega, by omega⟩, hpx]
      obtain ⟨⟨id, ex⟩, hres⟩ := Option.isSome_iff_exists.mp (resolve_color_id_isSome pr pg pb)
      refine ⟨id, ?_, by simpa using he⟩
      rw [get_pixel, if_neg he, hdx, hdy]
      dsimp only
      rw [if_neg (by omega : ¬ (0 ≥ p.image.width)), if_neg (by omega : ¬ (0 ≥ p.image.height)),
        hget]
      dsimp only
      rw [hres]

/-- For a raster with at least one column, every reachable provider state
keeps `image = r`, `initial = (x0, y0)` and — because the only cursor
mutation in `get_pixel` sits in the row-wrap branch, which requires
`dx ≥ width` while `dx` is always `0` — `current = (x0, y0)`. -/
theorem reachable_inv {r : Raster} {x0 y0 : Nat} (hw : 1 ≤ r.width) :
    ∀ {p : PixelProvider}, Reachable r x0 y0 p →
      p.image = r ∧ p.initial = (x0, y0) ∧ p.current = (x0, y0) := by
  intro p h
  induction h with
  | init => exact ⟨rfl, rfl, rfl⟩
  | @step q q' o _ hstep ih =>
    obtain ⟨hi, hinit, hcur⟩ := ih
    have hcases := get_pixel_step_cases (p := q) (by rw [hcur, hinit]) (by rw [hi]; exact hw)
    rcases hcases with ⟨heq, -⟩ | ⟨heq, -⟩ | ⟨id, heq, -⟩ <;>
      (rw [heq] at hstep
       simp only [Option.some.injEq, Prod.mk.injEq] at hstep
       obtain ⟨-, rfl⟩ := hstep
       exact ⟨hi, hinit, hcur⟩)

/-! ## Claim theorems -/

/-- C1 (failing-input evaluation): on a 1×1 raster with origin `(0, 0)` the
first `get_pixel` call yields the record at `(0, 0)` and leaves the provider
state completely unchanged — `get_pixel` never increments `current.0` — so
the second call, which after `R×C = 1` records the claim requires to be
end-of-stream, yields the very same record again; the stream never ends. -/
theorem get_pixel_stuck_at_origin :
    get_pixel whiteProvider = some (some ⟨0, 0, 0⟩, whiteProvider) ∧
    (get_pixel whiteProvider).bind (fun r => get_pixel r.2) =
      some (some ⟨0, 0, 0⟩, whiteProvider) :=
  ⟨rfl, rfl⟩

/-- C2: `pack` returns exactly the 4 little-endian bytes of the signed
32-bit value `x + y*1590 + colorId*636000` (for in-range records the value
fits in 31 bits, so the signed and unsigned encodings agree), and on the
four singled-out inputs it returns `[0,0,0,0]`, little-endian 1,
little-endian 1590 and little-endian 636000. -/
theorem pack_le_bytes (x y c : Nat) (hx : x < 1590) (hy : y < 400) (hc : c < 25) :
    pack ⟨x, y, c⟩ =
      [(x + y * 1590 + c * 636000) % 2 ^ 8,
       (x + y * 1590 + c * 636000) / 2 ^ 8 % 2 ^ 8,
       (x + y * 1590 + c * 636000) / 2 ^ 16 % 2 ^ 8,
       (x + y * 1590 + c * 636000) / 2 ^ 24 % 2 ^ 8] ∧
    (pack ⟨x, y, c⟩).length = 4 ∧
    x + y * 1590 + c * 636000 < 2 ^ 31 ∧
    pack ⟨0, 0, 0⟩ = [0, 0, 0, 0] ∧
    pack ⟨1, 0, 0⟩ = [1, 0, 0, 0] ∧
    pack ⟨0, 1, 0⟩ = [1590 % 2 ^ 8, 1590 / 2 ^ 8, 0, 0] ∧
    pack ⟨0, 0, 1⟩ = [636000 % 2 ^ 8, 636000 / 2 ^ 8 % 2 ^ 8, 636000 / 2 ^ 16, 0] := by
  refine ⟨?_, rfl, by omega, by decide, by decide, by decide, by decide⟩
  rw [pack]
  dsimp only
  rw [MAX_WIDTH, SIZE, MAX_COLOR_ID]
  rw [Nat.mod_eq_of_lt (show x < 2 ^ 32 by omega),
    Nat.mod_eq_of_lt (show y < 2 ^ 32 by omega),
    Nat.mod_eq_of_lt (show c < 2 ^ 8 by omega)]
  rw [show x + y * 1590 + 636000 * (c + 0 * 25) = x + y * 1590 + c * 636000 by ring]
  rw [Nat.mod_eq_of_lt (show x + y * 1590 + c * 636000 < 2 ^ 32 by omega)]

/-- Witness for `pack_le_bytes` at `(x, y, colorId) = (5, 3, 2)`:
`5 + 3·1590 + 2·636000 = 1276775 = 0x137B67`. -/
theorem pack_le_bytes_witness : pack ⟨5, 3, 2⟩ = [103, 123, 19, 0] :=
  ((pack_le_bytes 5 3 2 (by decide) (by decide) (by decide)).1).trans (by decide)

/-- C3: for an RGB triple equal to some palette entry, `resolve_color_id`
returns `exact = true` and the lowest palette index holding that triple. -/
theorem resolve_color_id_exact (r g b : Nat) (h : (r, g, b) ∈ COLORS) :
    ∃ i, resolve_color_id r g b = some (i, true) ∧ i < COLORS.length ∧
      COLORS.getD i (0, 0, 0) = (r, g, b) ∧
      ∀ j < i, COLORS.getD j (0, 0, 0) ≠ (r, g, b) := by
  obtain ⟨k, hk, hlen, hget, hmin⟩ := resolveAux_exact (r, g, b) COLORS 0 none h
  exact ⟨k, by rw [resolve_color_id]; simpa using hk, hlen, hget, hmin⟩

/-- Witness for `resolve_color_id_exact` at the palette entry
`(255, 255, 255)`. -/
theorem resolve_color_id_exact_witness :
    (255, 255, 255) ∈ COLORS ∧
    ∃ i, resolve_color_id 255 255 255 = some (i, true) ∧ i < COLORS.length ∧
      COLORS.getD i (0, 0, 0) = (255, 255, 255) ∧
      ∀ j < i, COLORS.getD j (0, 0, 0) ≠ (255, 255, 255) :=
  ⟨by decide, resolve_color_id_exact 255 255 255 (by decide)⟩

/-- C4: for an RGB triple matching no palette entry, `resolve_color_id`
returns `exact = false` and an index minimizing the squared RGB distance,
with every strictly earlier index at strictly greater distance (earliest
wins on ties). -/
theorem resolve_color_id_nearest (r g b : Nat) (h : (r, g, b) ∉ COLORS) :
    ∃ i, resolve_color_id r g b = some (i, false) ∧ i < COLORS.length ∧
      (∀ j < COLORS.length,
        sqDist (r, g, b) (COLORS.getD i (0, 0, 0)) ≤
          sqDist (r, g, b) (COLORS.getD j (0, 0, 0))) ∧
      ∀ j < i,
        sqDist (r, g, b) (COLORS.getD i (0, 0, 0)) <
          sqDist (r, g, b) (COLORS.getD j (0, 0, 0)) := by
  have hne : ∀ c ∈ COLORS, sqDist (r, g, b) c ≠ 0 := by
    intro c hc h0
    exact h (by rwa [← (sqDist_eq_zero_iff _ _).mp h0] at hc)
  have hcol : COLORS = (255, 255, 255) :: COLORS.tail := rfl
  simp only [resolve_color_id]
  rw [hcol] at hne ⊢
  obtain ⟨j, k, hj, hk, hjk, hmin, hstrict⟩ :=
    resolveAux_inexact_start (r, g, b) (255, 255, 255) COLORS.tail 0 hne
  have hj' : j = k := by omega
  subst hj'
  exact ⟨j, hj, hk, hmin, hstrict⟩

/-- Witness for `resolve_color_id_nearest` at the off-palette triple
`(1, 1, 1)` (nearest entry is black, index 4, distance 3). -/
theorem resolve_color_id_nearest_witness :
    (1, 1, 1) ∉ COLORS ∧
    ∃ i, resolve_color_id 1 1 1 = some (i, false) ∧ i < COLORS.length ∧
      (∀ j < COLORS.length,
        sqDist (1, 1, 1) (COLORS.getD i (0, 0, 0)) ≤
          sqDist (1, 1, 1) (COLORS.getD j (0, 0, 0))) ∧
      ∀ j < i,
        sqDist (1, 1, 1) (COLORS.getD i (0, 0, 0)) <
          sqDist (1, 1, 1) (COLORS.getD j (0, 0, 0)) :=
  ⟨by decide, resolve_color_id_nearest 1 1 1 (by decide)⟩

/-- C5 (failing-input evaluation): on a 2×2 raster with origin `(0, 0)`, the
first `get_pixel` call emits coordinate `(0, 0)` and returns the provider to
an identical state, so the second call emits coordinate `(0, 0)` again — the
cursor does not advance and a coordinate is re-emitted, violating the claimed
invariant (the exhausted-flag part of the invariant is not at fault here). -/
theorem get_pixel_reemits_coordinate :
    get_pixel blackProvider = some (some ⟨0, 0, 4⟩, blackProvider) ∧
    (get_pixel blackProvider).bind (fun r => get_pixel r.2) =
      some (some ⟨0, 0, 4⟩, blackProvider) :=
  ⟨rfl, rfl⟩

/-- C6: `PixelProvider.new` rejects `x ≥ 1590` (then `y ≥ 400`) with the
corresponding out-of-range error before ever consulting the image-open
result, so the outcome is independent of the image; for in-range origins it
never returns an out-of-range error. -/
theorem new_out_of_range (img img' : Except Unit Raster) (x y : Nat) :
    (1590 ≤ x ∨ 400 ≤ y →
      (PixelProvider.new img x y = .error .xOutOfRange ∨
        PixelProvider.new img x y = .error .yOutOfRange) ∧
      PixelProvider.new img x y = PixelProvider.new img' x y) ∧
    (x < 1590 → y < 400 →
      PixelProvider.new img x y ≠ .error .xOutOfRange ∧
      PixelProvider.new img x y ≠ .error .yOutOfRange) := by
  constructor
  · intro h
    by_cases hx : x ≥ MAX_WIDTH
    · rw [PixelProvider.new.eq_def, if_pos hx, PixelProvider.new.eq_def, if_pos hx]
      exact ⟨Or.inl rfl, rfl⟩
    · have hy : y ≥ MAX_HEIGHT := by
        rw [MAX_HEIGHT]
        rw [MAX_WIDTH] at hx
        omega
      rw [PixelProvider.new.eq_def, if_neg hx, if_pos hy, PixelProvider.new.eq_def, if_neg hx,
        if_pos hy]
      exact ⟨Or.inr rfl, rfl⟩
  · intro hx hy
    rw [PixelProvider.new.eq_def, if_neg (show ¬ x ≥ MAX_WIDTH by rw [MAX_WIDTH]; omega),
      if_neg (show ¬ y ≥ MAX_HEIGHT by rw [MAX_HEIGHT]; omega)]
    cases img with
    | error e => exact ⟨by simp, by simp⟩
    | ok raster => exact ⟨by simp, by simp⟩

/-- Witness for `new_out_of_range` at `x = 1590`, `y = 0`, with a failing
image open. -/
theorem new_out_of_range_witness :
    PixelProvider.new (Except.error ()) 1590 0 = Except.error NewError.xOutOfRange ∨
    PixelProvider.new (Except.error ()) 1590 0 = Except.error NewError.yOutOfRange :=
  ((new_out_of_range (Except.error ()) (Except.ok whiteRaster) 1590 0).1 (Or.inl (by omega))).1

/-- C7: for any sequence of send outcomes the loop makes at most 5 attempts;
every failed attempt is followed by a fixed 5-second sleep; if all 5 attempts
fail, exactly 5 attempts and 5 sleeps happened and the pixel was not sent (it
is dropped); if the first success is attempt `k`, exactly `k + 1` attempts
happened; and the worker state after a paint step does not depend on the
send outcomes at all — a dropped pixel leaves no trace and is never retried,
the worker simply moves on with the advanced provider. -/
theorem send_retry_bounded (ok : Nat → Bool) :
    (sendLoop ok).1 ≤ 5 ∧
    (∀ d ∈ (sendLoop ok).2.2, d = 5) ∧
    ((sendLoop ok).2.1 = false →
      (sendLoop ok).1 = 5 ∧ (sendLoop ok).2.2.length = 5) ∧
    (∀ k < 5, ok k = true → (∀ j < k, ok j = false) →
      (sendLoop ok).1 = k + 1 ∧ (sendLoop ok).2.1 = true ∧
        (sendLoop ok).2.2.length = k) ∧
    (∀ (s : WorkerState) (rOk tF : Bool) (ok' : Nat → Bool),
      (botStep s .frame rOk tF ok).1 = (botStep s .frame rOk tF ok').1) := by
  refine ⟨sendLoopGo_attempts_le ok 5 0, fun d hd => sendLoopGo_sleeps ok 5 0 d hd,
    fun hfail => sendLoopGo_fail ok 5 0 hfail, ?_, ?_⟩
  · intro k hk hok hfirst
    exact sendLoopGo_success ok 5 k 0 hk (by simpa using hok)
      (fun j hj => by simpa using hfirst j hj)
  · intro s rOk tF ok'
    cases tF with
    | false => rfl
    | true =>
      simp only [botStep, if_true]
      cases hgp : get_pixel s.provider with
      | none => rfl
      | some pr =>
        obtain ⟨o, p'⟩ := pr
        cases o <;> rfl

/-- Witness for `send_retry_bounded` with every attempt failing: 5 attempts,
5 sleeps. -/
theorem send_retry_bounded_witness :
    (sendLoop (fun _ => false)).1 = 5 ∧ (sendLoop (fun _ => false)).2.2.length = 5 :=
  (send_retry_bounded (fun _ => false)).2.2.1 rfl

/-- C8: on a `Close` frame or a `ConnectionClosed`/`AlreadyClosed` transport
error, the worker makes exactly one fresh handshake attempt, against its own
endpoint; no pixel is pulled and nothing is sent, and the shared provider is
untouched (no pixel repeated or skipped); on success the generation counter
of the connection handle is bumped (new handle installed) and the status is
preserved, on failure the `unwrap` panic terminates the worker with no
further attempt. -/
theorem reconnect_single_attempt (s : WorkerState) (ev : InEvent) (rOk tF : Bool)
    (sendOk : Nat → Bool)
    (hev : ev = .closeMsg ∨ ev = .connClosed ∨ ev = .alreadyClosed) :
    (botStep s ev rOk tF sendOk).2.handshakes = [s.url] ∧
    (botStep s ev rOk tF sendOk).2.pulled = none ∧
    (botStep s ev rOk tF sendOk).2.sendPayloads = [] ∧
    (botStep s ev rOk tF sendOk).1.provider = s.provider ∧
    (botStep s ev rOk tF sendOk).1.url = s.url ∧
    (rOk = true →
      (botStep s ev rOk tF sendOk).1.status = s.status ∧
      (botStep s ev rOk tF sendOk).1.connGen = s.connGen + 1) ∧
    (rOk = false → (botStep s ev rOk tF sendOk).1.status = .terminated) := by
  rcases hev with rfl | rfl | rfl <;> cases rOk <;> simp [botStep]

/-- Witness for `reconnect_single_attempt`: a failed reconnection terminates
the worker. -/
theorem reconnect_single_attempt_witness :
    (botStep ⟨7, 0, whiteProvider, .running⟩ .closeMsg false true (fun _ => true)).1.status =
      Status.terminated :=
  (reconnect_single_attempt ⟨7, 0, whiteProvider, .running⟩ .closeMsg false true
    (fun _ => true) (Or.inl rfl)).2.2.2.2.2.2 rfl

/-- C9 counterexample: with two configured endpoints and the second handshake
failing, `main` aborts (`failed = true`) without ever reaching the await-all
point (`awaited = false`) — contrary to the claim, the orchestrator does not
keep waiting for the sibling worker that was already spawned. -/
theorem main_aborts_on_handshake_failure :
    mainModel [true, false] = ⟨1, false, true⟩ := rfl

/-- C9 (amended): a handshake failure during the `i`-th worker's
construction aborts the orchestrator: only the `i` earlier workers were
spawned, the await-all point is never reached, and `main` returns the
error. -/
theorem handshake_failure_aborts_orchestrator (outcomes : List Bool) (i : Nat)
    (hi : outcomes.getD i true = false)
    (hfirst : ∀ j < i, outcomes.getD j true = true) :
    mainModel outcomes = ⟨i, false, true⟩ := by
  have := mainGo_abort outcomes 0 i hi hfirst
  simpa [mainModel] using this

/-- Witness for `handshake_failure_aborts_orchestrator` at three endpoints
with the third handshake failing. -/
theorem handshake_failure_aborts_orchestrator_witness :
    mainModel [true, true, false] = ⟨2, false, true⟩ :=
  handshake_failure_aborts_orchestrator [true, true, false] 2 (by decide) (by decide)

/-- C10 counterexample: over a zero-width one-row 8-bit RGB raster the very
first `get_pixel` call panics — the row-wrap branch fires (`dx = 0 ≥ width =
0`), the height check passes (`dy = 0 < 1`), and the raster read at the
stale `(dx, dy) = (0, 0)` is out of bounds on a width-0 raster. -/
theorem get_pixel_panics_on_zero_width : get_pixel zeroWidthProvider = none := rfl

/-- C10 (amended): over any 8-bit RGB raster with at least one column,
`get_pixel` never panics from any state reachable from construction: the
cursor never leaves the origin, so the `cursor − origin` subtraction never
underflows and any raster read happens at `(0, 0)`, in bounds (the
representable-as-RGB8 assertion holds by hypothesis, the raster being 8-bit
RGB). -/
theorem get_pixel_no_panic {r : Raster} {x0 y0 : Nat} (hw : 1 ≤ r.width)
    {p : PixelProvider} (hp : Reachable r x0 y0 p) :
    get_pixel p ≠ none := by
  obtain ⟨hi, hinit, hcur⟩ := reachable_inv hw hp
  rcases get_pixel_step_cases (p := p) (by rw [hcur, hinit]) (by rw [hi]; exact hw) with
    ⟨heq, -⟩ | ⟨heq, -⟩ | ⟨id, heq, -⟩ <;> simp [heq]

/-- Witness for `get_pixel_no_panic` at the freshly constructed provider
over the 1×1 white raster. -/
theorem get_pixel_no_panic_witness : get_pixel whiteProvider ≠ none :=
  @get_pixel_no_panic whiteRaster 0 0 (by decide) whiteProvider Reachable.init

end PB
